import Mathlib

/-!
Verification of the Chithi chat client's synchronization core.

Shallow embedding of:
- `src/services/api.js` — the axios session transport with the
  single-flight token-refresh interceptor (`isRefreshing`, `refreshQueue`);
- `src/hooks/useChat.js` — the conversation state reconciler
  (`ws.onmessage` branches, `fetchConversation`, `send`, `sendViaRest`,
  `submitEdit`, the websocket effect's `cancelled` handshake guard).

Ids are modelled as `Nat` (JavaScript truthiness checks on an id become
`≠ 0`), timestamps as `Int` (millisecond epoch, as produced by
`new Date(x).getTime()`), strings as `String`.
-/

/-- JS `String.prototype.trim`: strip whitespace from both ends. -/
def jsTrim (s : String) : String :=
  ⟨((s.data.dropWhile Char.isWhitespace).reverse.dropWhile Char.isWhitespace).reverse⟩

/-- One reaction bucket `{emoji, count, users}` on a message. -/
structure Reaction where
  emoji : String
  count : Nat
  users : List Nat
deriving DecidableEq, Repr

/-- A chat message as the client stores it (sender/receiver reduced to
their ids, which is all the reconciler compares). -/
structure Message where
  id : Nat
  senderId : Nat
  receiverId : Nat
  timestamp : Int
  content : String
  is_edited : Bool
  is_deleted : Bool
  delivered : Bool
  read : Bool
  reactions : List Reaction
  attachment_url : Option String
  attachment_thumb : Option String
  attachment : Option String
deriving DecidableEq, Repr

/-- A sidebar contact: identity id plus the chat metadata the reconciler
mutates (`is_online`, `unread`, `last_message`). -/
structure Contact where
  id : Nat
  is_online : Bool
  unread : Nat
  last_message : Option Message
deriving DecidableEq, Repr

/-- Outbound side-channel frames handed to `sendWhenWsReady`. -/
inductive Frame where
  | readFrame (lastRead : Int)
  | deliveredFrame (messageId : Nat)
deriving DecidableEq, Repr

/-- Reaction event action (`action ∈ \{added, removed\}` per the event
vocabulary). -/
inductive RAction where
  | added
  | removed
deriving DecidableEq, Repr

/-- Inbound websocket event vocabulary of `ws.onmessage` in
`useChat.js` (the `friend_request` branch only raises a notification and
is omitted).  `message_updated` payloads are complete serialized
messages, as everywhere else in the protocol. -/
inductive Event where
  | presence (userId : Nat) (online : Bool)
  | presenceSync (userIds : List Nat)
  | typingEvt (userId : Nat)
  | delivered (userId : Nat) (messageId : Nat)
  | readEvt (userId : Nat) (lastRead : Int)
  | sidebar (msg : Message)
  | message (msg : Message)
  | messageUpdated (upd : Message)
  | reaction (messageId : Nat) (emoji : String) (userId : Nat) (action : RAction)
  | messageDeleted (messageId : Nat)
deriving DecidableEq, Repr

/-- The reconciler state owned by `useChat`: contact list, active
selection, message list, typing flag, the `deliveredAcksRef` set, and
the outbound frames emitted so far. -/
structure ChatState where
  users : List Contact
  selectedId : Option Nat
  messages : List Message
  typing : Bool
  deliveredAcks : List Nat
  outFrames : List Frame
deriving DecidableEq, Repr

/-- JS `Set.prototype.add` on an insertion-ordered set represented as a
duplicate-free list: append iff absent. -/
def jsSetInsert (l : List Nat) (x : Nat) : List Nat :=
  if l.contains x then l else l ++ [x]

/-- JS `new Set(arr)`: deduplicate keeping first occurrences in
insertion order. -/
def jsSetOfList (l : List Nat) : List Nat :=
  l.foldl jsSetInsert []

/-- The `reaction` branch body: `findIndex` on emoji, then push /
in-place update / splice.  Rendered as a first-match traversal: the
first bucket with the event's emoji is rebuilt through a JS `Set`
(`added` inserts the reactor, `removed` deletes it), its `count` is set
to the contributor-list length, and it is dropped when that length is 0;
when no bucket matches, `added` pushes a fresh `\{emoji, count: 1,
users: [reactorId]\}` at the end and `removed` does nothing. -/
def updateBuckets (emoji : String) (uid : Nat) (action : RAction) :
    List Reaction → List Reaction
  | [] =>
    match action with
    | .added => [⟨emoji, 1, [uid]⟩]
    | .removed => []
  | r :: rest =>
    if r.emoji = emoji then
      let users' :=
        match action with
        | .added => jsSetInsert (jsSetOfList r.users) uid
        | .removed => (jsSetOfList r.users).filter (fun x => x ≠ uid)
      if users'.length = 0 then rest
      else ⟨r.emoji, users'.length, users'⟩ :: rest
    else r :: updateBuckets emoji uid action rest

/-- Apply a reaction event to one message (`\{ ...m, reactions \}`). -/
def applyReaction (m : Message) (emoji : String) (uid : Nat) (action : RAction) :
    Message :=
  { m with reactions := updateBuckets emoji uid action m.reactions }

/-- The `message_deleted` field reset applied to a message and to a
contact's `last_message`: placeholder content, `is_deleted`, cleared
attachment fields. -/
def deleteFields (m : Message) : Message :=
  { m with
    content := "This message was deleted"
    is_deleted := true
    attachment_url := none
    attachment_thumb := none
    attachment := none }

/-- `prev.some((p) => p.id === msg.id) ? prev : [...prev, msg]` — the
id-keyed dedup append shared by the `message` event branch and
`sendViaRest`. -/
def dedupAppend (msgs : List Message) (msg : Message) : List Message :=
  if msgs.any (fun p => p.id = msg.id) then msgs else msgs ++ [msg]

/-- `msg.sender?.id === user?.id ? msg.receiver : msg.sender` — the
other participant of a message relative to `self`. -/
def msgTarget (selfId : Nat) (msg : Message) : Nat :=
  if msg.senderId = selfId then msg.receiverId else msg.senderId

/-- `prev.find((u) => u.id === cid)?.unread || 0` — the `unread` count
stored for contact `cid` (0 when the contact is absent). -/
def unreadOf (users : List Contact) (cid : Nat) : Nat :=
  match users.find? (fun u => u.id = cid) with
  | some u => u.unread
  | none => 0

/-- `prev.find((u) => u.id === cid)?.is_online || false`. -/
def onlineOf (users : List Contact) (cid : Nat) : Bool :=
  match users.find? (fun u => u.id = cid) with
  | some u => u.is_online
  | none => false

/-- The contact upsert shared by the `sidebar` and `message` branches:
recompute the other participant, merge the existing entry's fields
(`existing.unread`, `existing.is_online`), set `last_message`, recompute
`unread` (`isActive ? 0 : (existing.unread || 0) + (msg.sender?.id !==
user?.id ? 1 : 0)`), and move the contact to the front, the other
contacts (`prev.filter((u) => u.id !== targetId)`) behind it. -/
def upsertContact (selfId : Nat) (selectedId : Option Nat)
    (users : List Contact) (msg : Message) : List Contact :=
  let targetId := msgTarget selfId msg
  { id := targetId
    is_online := onlineOf users targetId
    unread := if selectedId = some targetId then 0
      else unreadOf users targetId + (if msg.senderId ≠ selfId then 1 else 0)
    last_message := some msg } :: users.filter (fun u => u.id ≠ targetId)

/-- Does the message belong to the active conversation (either direction
between `self` and `selected`)? -/
def inActiveConv (selfId : Nat) (selectedId : Option Nat) (msg : Message) : Prop :=
  match selectedId with
  | some sel =>
    (msg.senderId = selfId ∧ msg.receiverId = sel) ∨
    (msg.senderId = sel ∧ msg.receiverId = selfId)
  | none => False

instance (selfId : Nat) (selectedId : Option Nat) (msg : Message) :
    Decidable (inActiveConv selfId selectedId msg) := by
  unfold inActiveConv
  cases selectedId <;> infer_instance

/-- The event-to-state reducer: one `ws.onmessage` dispatch of
`useChat.js`, branch by branch. -/
def applyEvent (selfId : Nat) (s : ChatState) (e : Event) : ChatState :=
  match e with
  | .presence uid online =>
    if uid ≠ 0 then
      let f := fun (u : Contact) => if u.id = uid then { u with is_online := online } else u
      { s with users := s.users.map f }
    else s
  | .presenceSync ids =>
    { s with users := s.users.map (fun u => { u with is_online := ids.contains u.id }) }
  | .typingEvt uid =>
    if uid ≠ 0 ∧ uid ≠ selfId ∧ s.selectedId = some uid then
      { s with typing := true }
    else s
  | .delivered uid mid =>
    if uid ≠ 0 ∧ uid ≠ selfId ∧ mid ≠ 0 then
      let f := fun (m : Message) => if m.id = mid then { m with delivered := true } else m
      { s with messages := s.messages.map f }
    else s
  | .readEvt uid lastRead =>
    if uid ≠ 0 ∧ uid ≠ selfId then
      let f := fun (m : Message) =>
        if m.senderId = selfId ∧ m.timestamp ≤ lastRead then
          { m with read := true, delivered := true }
        else m
      { s with messages := s.messages.map f }
    else s
  | .sidebar msg =>
    { s with users := upsertContact selfId s.selectedId s.users msg }
  | .message msg =>
    let typing' := if s.selectedId = some msg.senderId then false else s.typing
    let users' := upsertContact selfId s.selectedId s.users msg
    if inActiveConv selfId s.selectedId msg then
      let messages' := dedupAppend s.messages msg
      if msg.receiverId = selfId ∧ msg.id ≠ 0 ∧ ¬ s.deliveredAcks.contains msg.id then
        { s with
          users := users'
          typing := typing'
          messages := messages'
          deliveredAcks := s.deliveredAcks ++ [msg.id]
          outFrames := s.outFrames ++ [.deliveredFrame msg.id] }
      else
        { s with users := users', typing := typing', messages := messages' }
    else
      { s with users := users', typing := typing' }
  | .messageUpdated upd =>
    -- `{ ...m, ...updated }` with a complete payload overwrites every
    -- field of `m`; the sidebar copy is set to `updated` directly.
    let fm := fun (m : Message) => if m.id = upd.id then upd else m
    let fu := fun (u : Contact) =>
      match u.last_message with
      | some lm => if lm.id = upd.id then { u with last_message := some upd } else u
      | none => u
    { s with messages := s.messages.map fm, users := s.users.map fu }
  | .reaction mid emoji uid action =>
    if mid ≠ 0 ∧ emoji ≠ "" ∧ uid ≠ 0 then
      let f := fun (m : Message) => if m.id = mid then applyReaction m emoji uid action else m
      { s with messages := s.messages.map f }
    else s
  | .messageDeleted mid =>
    let fm := fun (m : Message) => if m.id = mid then deleteFields m else m
    let fu := fun (u : Contact) =>
      match u.last_message with
      | some lm => if lm.id = mid then { u with last_message := some (deleteFields lm) } else u
      | none => u
    { s with messages := s.messages.map fm, users := s.users.map fu }

/-- Fold a list of events through the reducer. -/
def applyEvents (selfId : Nat) (s : ChatState) (es : List Event) : ChatState :=
  es.foldl (applyEvent selfId) s

/-- `fetchConversation` resolving with snapshot `data` for the selected
contact: replace the message list with `data`, emit a `read` frame for
the last entry's timestamp when `data` is nonempty, and zero the
selected contact's `unread`.  (On no selection or a failed request the
state is untouched.) -/
def fetchConversationApply (s : ChatState) (data : List Message) : ChatState :=
  match s.selectedId with
  | none => s
  | some sel =>
    { s with
      messages := data
      outFrames := s.outFrames ++
        (match data.getLast? with
         | some last => [.readFrame last.timestamp]
         | none => [])
      users := s.users.map (fun u => if u.id = sel then { u with unread := 0 } else u) }


/-!
Session transport (`src/services/api.js`): the response interceptor's
single-flight token refresh.  Environment events deliver 401 responses
(carrying whether the request's config bears the `_retry` flag and
whether its URL is the refresh endpoint) and resolve the pending refresh
call.  `pendingRefresh` lists the refresh HTTP calls actually in flight
(the interceptor is supposed to keep it at length ≤ 1 — proved, not
assumed); `replays` records every `api(original)` re-issue as
`(request id, config carries the retry flag, token attached)`. -/

/-- State of the axios transport module. -/
structure TransportState where
  access : Option Nat
  refreshTok : Option Nat
  isRefreshing : Bool
  refreshQueue : List Nat
  pendingRefresh : List Nat
  replays : List (Nat × Bool × Option Nat)
  rejected : List Nat
  refreshStarts : Nat
deriving DecidableEq, Repr

/-- Transport events: a 401 response on request `rid`, or the pending
refresh call resolving. -/
inductive TEvent where
  | resp401 (rid : Nat) (hasRetryFlag : Bool) (isRefreshUrl : Bool)
  | refreshOk (tok : Nat)
  | refreshErr
deriving DecidableEq, Repr

/-- One step of the response interceptor / refresh continuation. -/
def tStep (s : TransportState) (e : TEvent) : TransportState :=
  match e with
  | .resp401 rid hasRetryFlag isRefreshUrl =>
    if hasRetryFlag then
      -- `original._retry` set: reject immediately.
      { s with rejected := s.rejected ++ [rid] }
    else
      match s.refreshTok with
      | none => { s with rejected := s.rejected ++ [rid] }
      | some _ =>
        if isRefreshUrl then
          -- 401 on the refresh endpoint: clear both tokens, reject.
          { s with access := none, refreshTok := none, rejected := s.rejected ++ [rid] }
        else if s.isRefreshing then
          -- queue on the in-flight refresh.
          { s with refreshQueue := s.refreshQueue ++ [rid] }
        else
          -- become the refresher: set `_retry` on own config, raise the
          -- flag, issue the refresh call.
          { s with
            isRefreshing := true
            pendingRefresh := s.pendingRefresh ++ [rid]
            refreshStarts := s.refreshStarts + 1 }
  | .refreshOk tok =>
    match s.pendingRefresh with
    | [] => s
    | r :: _ =>
      -- store the token, resolve the queue (waiters replay without the
      -- retry flag), replay own request (config carries `_retry`),
      -- `finally` lowers the flag.
      { s with
        access := some tok
        replays := s.replays ++ s.refreshQueue.map (fun q => (q, false, some tok))
          ++ [(r, true, some tok)]
        refreshQueue := []
        isRefreshing := false
        pendingRefresh := [] }
  | .refreshErr =>
    match s.pendingRefresh with
    | [] => s
    | r :: _ =>
      -- reject the queue with the error, clear both tokens, reject own
      -- request, lower the flag.
      { s with
        rejected := s.rejected ++ s.refreshQueue ++ [r]
        access := none
        refreshTok := none
        refreshQueue := []
        isRefreshing := false
        pendingRefresh := [] }

/-- Run the transport over an event trace. -/
def tRun (s : TransportState) (es : List TEvent) : TransportState :=
  es.foldl tStep s

/-- Module load state of `api.js`: flag down, queue empty, no refresh in
flight, given stored credentials. -/
def tInit (access refreshTok : Option Nat) : TransportState :=
  { access := access
    refreshTok := refreshTok
    isRefreshing := false
    refreshQueue := []
    pendingRefresh := []
    replays := []
    rejected := []
    refreshStarts := 0 }

/-- N requests all receiving 401 (fresh configs, non-refresh URLs). -/
def fire401s (s : TransportState) (rids : List Nat) : TransportState :=
  rids.foldl (fun s r => tStep s (.resp401 r false false)) s

/-!
Realtime connection manager (`useChat.js` websocket effect): each effect
run starts a handshake (`connect`) with a fresh `cancelled := false`
binding; the effect cleanup sets `cancelled := true`; a token resolving
later runs `if (!wsToken || cancelled) return;` before `new WebSocket`
bound to the contact the handshake was started for. -/

/-- An in-flight handshake token request and its `cancelled` binding. -/
structure Handshake where
  contact : Nat
  cancelled : Bool
deriving DecidableEq, Repr

/-- Connection-manager state: the active contact, the in-flight
handshakes, and the contacts for which a connection was opened. -/
structure ConnState where
  active : Option Nat
  inflight : List Handshake
  conns : List Nat
deriving DecidableEq, Repr

/-- Connection events: the active contact changes (`none` models
unmount — cleanup only), or the `i`-th in-flight token request resolves
with `tok` (`none` = no `ws_token` in the response). -/
inductive ConnEvent where
  | select (c : Option Nat)
  | resolve (i : Nat) (tok : Option Nat)
deriving DecidableEq, Repr

/-- One step: `select` runs the previous effect's cleanup (every
in-flight handshake's `cancelled` becomes true) and starts a handshake
for the new contact; `resolve` applies the `!wsToken || cancelled` guard
and otherwise opens a connection bound to the handshake's contact. -/
def connStep (s : ConnState) (e : ConnEvent) : ConnState :=
  match e with
  | .select c =>
    { active := c
      inflight := s.inflight.map (fun h => { h with cancelled := true }) ++
        (match c with
         | some cid => [⟨cid, false⟩]
         | none => [])
      conns := s.conns }
  | .resolve i tok =>
    match s.inflight.get? i with
    | none => s
    | some h =>
      let inflight' := s.inflight.eraseIdx i
      match tok with
      | none => { s with inflight := inflight' }
      | some _ =>
        if h.cancelled then { s with inflight := inflight' }
        else { s with inflight := inflight', conns := s.conns ++ [h.contact] }

/-- Mount state: nothing selected, nothing in flight, nothing open. -/
def connInit : ConnState := ⟨none, [], []⟩

/-- Run the connection manager over an event trace from mount. -/
def connRun (es : List ConnEvent) : ConnState :=
  es.foldl connStep connInit

/-!
Outbound action dispatcher: `send` / `sendViaRest` (`useChat.js`) and
`sendMessage` (`api.js`); `submitEdit` / `cancelEdit` (`useChat.js`). -/

/-- An HTTP request issued by the dispatcher: multipart form-data with
the listed field names, or a JSON post. -/
inductive ApiRequest where
  | postMultipart (path : String) (fields : List String)
  | postJson (path : String) (receiver : Nat) (content : String)
deriving DecidableEq, Repr

/-- `sendMessage(receiverId, content, file)` from `api.js`: with a file,
multipart form-data appending `receiver`, `content` (when non-empty) and
`attachment`; otherwise a JSON post. -/
def sendMessageReq (receiverId : Nat) (content : String) (hasFile : Bool) : ApiRequest :=
  if hasFile then
    .postMultipart "/api/chat/send/"
      (["receiver"] ++ (if content ≠ "" then ["content"] else []) ++ ["attachment"])
  else
    .postJson "/api/chat/send/" receiverId content

/-- The request `sendViaRest(content, file)` issues. -/
def sendViaRestReq (receiverId : Nat) (content : String) (hasFile : Bool) : ApiRequest :=
  if hasFile then sendMessageReq receiverId content true
  else .postJson "/api/chat/send/" receiverId content

/-- What one `send()` call does on the wire. -/
inductive SendEffect where
  | noSend
  | wsFrame (content : String)
  | restCall (req : ApiRequest)
deriving DecidableEq, Repr

/-- `send()`: empty trimmed text with no staged file is a no-op; a
staged file always goes through `sendViaRest` (multipart); otherwise the
websocket frame when the channel is open, else `sendViaRest` (JSON). -/
def send (text : String) (hasFile : Bool) (wsOpen : Bool) (receiverId : Nat) :
    SendEffect :=
  if jsTrim text = "" ∧ ¬ hasFile then .noSend
  else
    let content := jsTrim text
    if hasFile then .restCall (sendViaRestReq receiverId content true)
    else if wsOpen then .wsFrame content
    else .restCall (sendViaRestReq receiverId content false)

/-- The compose state of an in-progress edit. -/
structure EditState where
  editingMessageId : Option Nat
  editingText : String
deriving DecidableEq, Repr

/-- What one `submitEdit()` call does. -/
inductive EditEffect where
  | editFrame (messageId : Option Nat) (content : String)
  | warnNotOpen
  | noop
deriving DecidableEq, Repr

/-- `cancelEdit()`: clear both editing fields. -/
def cancelEdit (_st : EditState) : EditState :=
  { editingMessageId := none, editingText := "" }

/-- `submitEdit()`: empty trimmed body returns early; open channel sends
the edit frame; otherwise only a console warning — and `cancelEdit()`
runs on both of the latter paths. -/
def submitEdit (wsOpen : Bool) (st : EditState) : EditState × EditEffect :=
  let newText := jsTrim st.editingText
  if newText = "" then (st, .noop)
  else if wsOpen then (cancelEdit st, .editFrame st.editingMessageId newText)
  else (cancelEdit st, .warnNotOpen)

/-!
Claim C3 — edit while channel closed.
-/

/-- C3 counterexample: `submitEdit` with a non-empty trimmed body on a
closed channel logs the warning and makes no request, but it also runs
`cancelEdit()` unconditionally, so the editing state (`editingMessageId
= some 5`, `editingText = "hi"`) is cleared, not preserved as the claim
states. -/
theorem c3_edit_state_cleared_counterexample :
    (submitEdit false ⟨some 5, "hi"⟩).2 = .warnNotOpen ∧
    (submitEdit false ⟨some 5, "hi"⟩).1 = ⟨none, ""⟩ ∧
    (⟨none, ""⟩ : EditState) ≠ ⟨some 5, "hi"⟩ := by
  decide

/-- C3 (amended): for every edit submission with a non-empty trimmed
body, the edit frame is sent only when the push channel is open; when
the channel is not open no request of any kind is made, only a warning
is logged (no thrown error) — but the compose/editing state is cleared
by the unconditional `cancelEdit()`, not preserved.  An empty trimmed
body is a pure no-op that does preserve the editing state. -/
theorem c3_edit_closed_amended (wsOpen : Bool) (st : EditState)
    (hne : jsTrim st.editingText ≠ "") :
    (wsOpen = false →
      (submitEdit wsOpen st).2 = .warnNotOpen ∧
      (submitEdit wsOpen st).1 = ⟨none, ""⟩) ∧
    (wsOpen = true →
      (submitEdit wsOpen st).2 = .editFrame st.editingMessageId (jsTrim st.editingText) ∧
      (submitEdit wsOpen st).1 = ⟨none, ""⟩) ∧
    (∀ st' : EditState, jsTrim st'.editingText = "" →
      submitEdit wsOpen st' = (st', .noop)) := by
  refine ⟨?_, ?_, ?_⟩
  · intro hw
    subst hw
    simp [submitEdit, hne, cancelEdit]
  · intro hw
    subst hw
    simp [submitEdit, hne, cancelEdit]
  · intro st' h0
    simp [submitEdit, h0]

/-- C3 witness: the amended theorem applied on a closed channel with
body "hi" and editing id 5. -/
theorem c3_edit_closed_witness :
    jsTrim (EditState.mk (some 5) "hi").editingText ≠ "" ∧
    ((false = false →
      (submitEdit false ⟨some 5, "hi"⟩).2 = .warnNotOpen ∧
      (submitEdit false ⟨some 5, "hi"⟩).1 = ⟨none, ""⟩) ∧
    (false = true →
      (submitEdit false ⟨some 5, "hi"⟩).2 =
        .editFrame (EditState.mk (some 5) "hi").editingMessageId
          (jsTrim (EditState.mk (some 5) "hi").editingText) ∧
      (submitEdit false ⟨some 5, "hi"⟩).1 = ⟨none, ""⟩) ∧
    (∀ st' : EditState, jsTrim st'.editingText = "" →
      submitEdit false st' = (st', .noop))) :=
  ⟨by decide, c3_edit_closed_amended false ⟨some 5, "hi"⟩ (by decide)⟩

/-!
Claim C6 — attachment send routing.
-/

/-- C6: with a staged file, `send` always issues the HTTP multipart
request with the `attachment` field, for every text and channel state,
and never a push-channel frame; with no staged file and a non-empty
trimmed text, it uses the channel frame when open and the HTTP JSON post
otherwise. -/
theorem c6_attachment_routing (text : String) (rid : Nat)
    (hne : jsTrim text ≠ "") :
    (∀ (t : String) (wsOpen : Bool), ∃ fields,
      send t true wsOpen rid = .restCall (.postMultipart "/api/chat/send/" fields) ∧
      "attachment" ∈ fields) ∧
    (send text false true rid = .wsFrame (jsTrim text)) ∧
    (send text false false rid =
      .restCall (.postJson "/api/chat/send/" rid (jsTrim text))) := by
  refine ⟨?_, ?_, ?_⟩
  · intro t wsOpen
    refine ⟨["receiver"] ++ (if jsTrim t ≠ "" then ["content"] else []) ++ ["attachment"],
      ?_, by simp⟩
    simp [send, sendViaRestReq, sendMessageReq]
  · simp [send, hne]
  · simp [send, hne, sendViaRestReq]

/-- C6 witness: the routing theorem at text "hi", receiver 2; in
particular sending with a staged file on an open channel is a multipart
request. -/
theorem c6_attachment_routing_witness :
    jsTrim "hi" ≠ "" ∧
    ((∀ (t : String) (wsOpen : Bool), ∃ fields,
      send t true wsOpen 2 = .restCall (.postMultipart "/api/chat/send/" fields) ∧
      "attachment" ∈ fields) ∧
    (send "hi" false true 2 = .wsFrame (jsTrim "hi")) ∧
    (send "hi" false false 2 =
      .restCall (.postJson "/api/chat/send/" 2 (jsTrim "hi")))) :=
  ⟨by decide, c6_attachment_routing "hi" 2 (by decide)⟩

/-!
Claim C10 — unknown-id events are no-ops on the message list.
-/

/-- A guarded per-id map leaves a list unchanged when no element carries
the guarded id. -/
theorem map_guard_id (g : Message → Message) {l : List Message} {mid : Nat}
    (h : ∀ m ∈ l, m.id ≠ mid) :
    l.map (fun m => if m.id = mid then g m else m) = l := by
  induction l with
  | nil => rfl
  | cons a t ih =>
    simp only [List.map_cons]
    rw [if_neg (h a (by simp)), ih (fun m hm => h m (by simp [hm]))]

/-- C10: a `delivered`, `message_updated`, `message_deleted`, or
`reaction` event whose message id matches no entry of the current
message list leaves the message list unchanged. -/
theorem c10_unknown_id_noop (selfId : Nat) (s : ChatState) (mid uid : Nat)
    (upd : Message) (emoji : String) (act : RAction)
    (h : ∀ m ∈ s.messages, m.id ≠ mid) (hupd : upd.id = mid) :
    (applyEvent selfId s (.delivered uid mid)).messages = s.messages ∧
    (applyEvent selfId s (.messageUpdated upd)).messages = s.messages ∧
    (applyEvent selfId s (.messageDeleted mid)).messages = s.messages ∧
    (applyEvent selfId s (.reaction mid emoji uid act)).messages = s.messages := by
  refine ⟨?_, ?_, ?_, ?_⟩
  · simp only [applyEvent]
    split
    · simpa using map_guard_id (fun m => { m with delivered := true }) h
    · rfl
  · simp only [applyEvent]
    rw [hupd] at *
    simpa using map_guard_id (fun _ => upd) h
  · simp only [applyEvent]
    simpa using map_guard_id deleteFields h
  · simp only [applyEvent]
    split
    · simpa using map_guard_id (fun m => applyReaction m emoji uid act) h
    · rfl

/-- C10 witness: a state holding messages 1 and 2 and events for the
absent id 99. -/
def c10msg (i : Nat) : Message :=
  { id := i, senderId := 2, receiverId := 1, timestamp := Int.ofNat i, content := "m"
    is_edited := false, is_deleted := false, delivered := false, read := false
    reactions := [], attachment_url := none, attachment_thumb := none, attachment := none }

/-- Sample reconciler state with messages 1 and 2, contact 2 selected. -/
def c10state : ChatState :=
  { users := [⟨2, true, 0, none⟩], selectedId := some 2
    messages := [c10msg 1, c10msg 2], typing := false
    deliveredAcks := [], outFrames := [] }

/-- C10 witness: the no-op theorem at id 99 on `c10state`. -/
theorem c10_unknown_id_noop_witness :
    (∀ m ∈ c10state.messages, m.id ≠ 99) ∧ (c10msg 99).id = 99 ∧
    ((applyEvent 1 c10state (.delivered 2 99)).messages = c10state.messages ∧
    (applyEvent 1 c10state (.messageUpdated (c10msg 99))).messages = c10state.messages ∧
    (applyEvent 1 c10state (.messageDeleted 99)).messages = c10state.messages ∧
    (applyEvent 1 c10state (.reaction 99 "a" 2 .added)).messages = c10state.messages) :=
  ⟨by decide, by decide,
    c10_unknown_id_noop 1 c10state 99 2 (c10msg 99) "a" .added (by decide) (by decide)⟩

/-!
Claim C9 — message-event idempotence / no duplicate ids.
-/

/-- `dedupAppend` preserves duplicate-freeness of the id projection. -/
theorem dedupAppend_nodup {l : List Message} (m : Message)
    (h : (l.map Message.id).Nodup) :
    ((dedupAppend l m).map Message.id).Nodup := by
  unfold dedupAppend
  split
  · exact h
  · rename_i hany
    simp only [List.any_eq_true, decide_eq_true_eq, not_exists, not_and] at hany
    simp only [List.map_append, List.map_cons, List.map_nil]
    rw [List.nodup_append]
    refine ⟨h, List.nodup_singleton _, ?_⟩
    intro x hx hy
    simp only [List.mem_singleton] at hy
    subst hy
    obtain ⟨p, hp, hpid⟩ := List.mem_map.mp hx
    exact hany p hp hpid

/-- Appending the same message to an already-deduplicated list is the
identity the second time. -/
theorem dedupAppend_idem (l : List Message) (m : Message) :
    dedupAppend (dedupAppend l m) m = dedupAppend l m := by
  by_cases hany : (l.any fun p => decide (p.id = m.id)) = true
  · simp [dedupAppend, hany]
  · have h2 : ((l ++ [m]).any fun p => decide (p.id = m.id)) = true := by simp
    simp [dedupAppend, hany, h2]

/-- C9: a `message` event never leaves two entries with the same id (if
the message list's ids are duplicate-free they stay so), applying the
same `message` event twice changes the message list exactly as applying
it once, and the REST-send dedup (`sendViaRest`) also preserves
duplicate-freeness for the server-confirmed copy. -/
theorem c9_message_idempotent (selfId : Nat) (s : ChatState) (msg data : Message)
    (h : (s.messages.map Message.id).Nodup) :
    ((applyEvent selfId s (.message msg)).messages.map Message.id).Nodup ∧
    (applyEvent selfId (applyEvent selfId s (.message msg)) (.message msg)).messages =
      (applyEvent selfId s (.message msg)).messages ∧
    ((dedupAppend s.messages data).map Message.id).Nodup := by
  have hsel : ∀ t : ChatState, (applyEvent selfId t (.message msg)).selectedId = t.selectedId := by
    intro t
    simp only [applyEvent]
    split
    · split <;> rfl
    · rfl
  have hmsgs : ∀ t : ChatState,
      (applyEvent selfId t (.message msg)).messages =
        if inActiveConv selfId t.selectedId msg then dedupAppend t.messages msg
        else t.messages := by
    intro t
    simp only [applyEvent]
    split
    · split <;> simp_all
    · simp_all
  refine ⟨?_, ?_, dedupAppend_nodup data h⟩
  · rw [hmsgs]
    split
    · exact dedupAppend_nodup msg h
    · exact h
  · rw [hmsgs, hmsgs, hsel]
    split
    · exact dedupAppend_idem s.messages msg
    · rfl

/-- C9 witness: the idempotence theorem on `c10state` with a fresh
message 3 and a REST copy 4. -/
theorem c9_message_idempotent_witness :
    ((c10state.messages.map Message.id).Nodup) ∧
    (((applyEvent 1 c10state (.message (c10msg 3))).messages.map Message.id).Nodup ∧
    (applyEvent 1 (applyEvent 1 c10state (.message (c10msg 3))) (.message (c10msg 3))).messages =
      (applyEvent 1 c10state (.message (c10msg 3))).messages ∧
    ((dedupAppend c10state.messages (c10msg 4)).map Message.id).Nodup) :=
  ⟨by decide, c9_message_idempotent 1 c10state (c10msg 3) (c10msg 4) (by decide)⟩

/-!
Claim C8 — stale handshake cancellation.
-/

/-- Connection-manager invariant: every in-flight handshake whose
`cancelled` binding is still false was started by the current effect
run, i.e. is bound to the currently active contact. -/
def ConnInv (s : ConnState) : Prop :=
  ∀ h ∈ s.inflight, h.cancelled = false → s.active = some h.contact

/-- `connStep` preserves the invariant. -/
theorem connStep_inv {s : ConnState} (e : ConnEvent) (hs : ConnInv s) :
    ConnInv (connStep s e) := by
  cases e with
  | select c =>
    intro h hmem hcancel
    simp only [connStep, List.mem_append] at hmem ⊢
    rcases hmem with hmem | hmem
    · obtain ⟨h0, _, rfl⟩ := List.mem_map.mp hmem
      simp at hcancel
    · cases c with
      | some cid =>
        simp only [List.mem_singleton] at hmem
        subst hmem
        rfl
      | none => simp at hmem
  | resolve i tok =>
    intro h hmem hcancel
    have herase : h ∈ s.inflight.eraseIdx i → s.active = some h.contact := fun hm =>
      hs h ((s.inflight.eraseIdx_sublist i).mem hm) hcancel
    simp only [connStep] at hmem ⊢
    cases hget : s.inflight.get? i with
    | none =>
      simp only [hget] at hmem ⊢
      exact hs h hmem hcancel
    | some h0 =>
      simp only [hget] at hmem ⊢
      cases tok with
      | none => exact herase hmem
      | some t =>
        by_cases hc : h0.cancelled = true
        · simp only [if_pos hc] at hmem ⊢
          exact herase hmem
        · simp only [if_neg hc] at hmem ⊢
          exact herase hmem

/-- The invariant holds in every state reachable from mount. -/
theorem connRun_inv (es : List ConnEvent) : ConnInv (connRun es) := by
  suffices hgen : ∀ (s : ConnState), ConnInv s → ConnInv (es.foldl connStep s) by
    exact hgen connInit (by intro h hmem _; simp [connInit] at hmem)
  induction es with
  | nil => intro s hs; exact hs
  | cons e t ih => intro s hs; exact ih _ (connStep_inv e hs)

/-- C8: in every execution (event trace from mount), if a handshake
token request is still in flight for a contact that is no longer the
active one (the selection changed or the owner unmounted since it was
started), then that handshake is cancelled, and its token resolving late
opens no connection: the set of opened connections is unchanged. -/
theorem c8_stale_handshake (es : List ConnEvent) (i : Nat) (tok : Nat) (h : Handshake)
    (hget : (connRun es).inflight.get? i = some h)
    (hstale : (connRun es).active ≠ some h.contact) :
    h.cancelled = true ∧
    (connStep (connRun es) (.resolve i (some tok))).conns = (connRun es).conns := by
  have hmem : h ∈ (connRun es).inflight := List.get?_mem hget
  have hcancel : h.cancelled = true := by
    by_contra hc
    exact hstale (connRun_inv es h hmem (by simpa using hc))
  refine ⟨hcancel, ?_⟩
  simp only [connStep, hget, hcancel]
  simp

/-- C8 witness: contact 1's handshake is in flight when the user
switches to contact 2; the token for contact 1 then resolves, and no
connection is opened. -/
theorem c8_stale_handshake_witness :
    (connRun [.select (some 1), .select (some 2)]).inflight.get? 0 = some ⟨1, true⟩ ∧
    (connRun [.select (some 1), .select (some 2)]).active ≠ some (Handshake.mk 1 true).contact ∧
    ((Handshake.mk 1 true).cancelled = true ∧
      (connStep (connRun [.select (some 1), .select (some 2)]) (.resolve 0 (some 7))).conns =
        (connRun [.select (some 1), .select (some 2)]).conns) :=
  ⟨by decide, by decide,
    c8_stale_handshake [.select (some 1), .select (some 2)] 0 7 ⟨1, true⟩
      (by decide) (by decide)⟩

/-!
Claim C5 — reaction bucket invariant.
-/

/-- The reaction bucket invariant of the claim: count = contributor-set
size, contributors are pairwise distinct, no empty bucket. -/
def ReactionInv (rs : List Reaction) : Prop :=
  ∀ r ∈ rs, r.count = r.users.length ∧ r.users.Nodup ∧ r.users ≠ []

instance (rs : List Reaction) : Decidable (ReactionInv rs) := by
  unfold ReactionInv
  infer_instance

/-- JS `Set.add` keeps the contributor list duplicate-free. -/
theorem jsSetInsert_nodup {l : List Nat} (x : Nat) (h : l.Nodup) :
    (jsSetInsert l x).Nodup := by
  unfold jsSetInsert
  split
  · exact h
  · rename_i hmem
    have hx : x ∉ l := by simpa using hmem
    simp [List.nodup_append, h, hx]

/-- JS `new Set(arr)` always yields a duplicate-free list. -/
theorem jsSetOfList_nodup (l : List Nat) : (jsSetOfList l).Nodup := by
  suffices hgen : ∀ acc : List Nat, acc.Nodup → (l.foldl jsSetInsert acc).Nodup by
    exact hgen [] List.nodup_nil
  induction l with
  | nil => intro acc hacc; exact hacc
  | cons x t ih => intro acc hacc; exact ih _ (jsSetInsert_nodup x hacc)

/-- One `reaction` event application preserves the bucket invariant. -/
theorem updateBuckets_inv (emoji : String) (uid : Nat) (action : RAction)
    (rs : List Reaction) (h : ReactionInv rs) :
    ReactionInv (updateBuckets emoji uid action rs) := by
  induction rs with
  | nil =>
    cases action with
    | added =>
      intro r hr
      simp only [updateBuckets, List.mem_singleton] at hr
      subst hr
      exact ⟨rfl, List.nodup_singleton _, by simp⟩
    | removed =>
      intro r hr
      simp [updateBuckets] at hr
  | cons b rest ih =>
    have hrest : ReactionInv rest := fun r hr => h r (by simp [hr])
    by_cases hemoji : b.emoji = emoji
    · simp only [updateBuckets, if_pos hemoji]
      have husers : ∀ users' : List Nat, users'.Nodup →
          ReactionInv (if users'.length = 0 then rest
            else ⟨b.emoji, users'.length, users'⟩ :: rest) := by
        intro users' hnd
        split
        · exact hrest
        · rename_i hlen
          intro r hr
          rcases List.mem_cons.mp hr with hr | hr
          · subst hr
            refine ⟨rfl, hnd, ?_⟩
            intro he
            exact hlen (by simp [show users' = ([] : List Nat) from he])
          · exact hrest r hr
      cases action with
      | added => exact husers _ (jsSetInsert_nodup _ (jsSetOfList_nodup _))
      | removed => exact husers _ ((jsSetOfList_nodup _).filter _)
    · simp only [updateBuckets, if_neg hemoji]
      intro r hr
      rcases List.mem_cons.mp hr with hr | hr
      · subst hr
        exact h r (by simp)
      · exact ih hrest r hr

/-- A single reaction event keeps the invariant on every message of the
state. -/
theorem applyEvent_reaction_inv (selfId : Nat) (s : ChatState)
    (mid : Nat) (emoji : String) (uid : Nat) (act : RAction)
    (h : ∀ m ∈ s.messages, ReactionInv m.reactions) :
    ∀ m ∈ (applyEvent selfId s (.reaction mid emoji uid act)).messages,
      ReactionInv m.reactions := by
  simp only [applyEvent]
  split
  · intro m hm
    simp only [List.mem_map] at hm
    obtain ⟨m0, hm0, rfl⟩ := hm
    split
    · exact updateBuckets_inv emoji uid act m0.reactions (h m0 hm0)
    · exact h m0 hm0
  · exact h

/-- C5: after applying any sequence of `reaction` events to a state
whose messages' reaction buckets all satisfy the invariant, every
bucket's `count` equals the size of its contributor list, no user
appears twice in a bucket, and no bucket with an empty contributor list
remains. -/
theorem c5_reaction_bucket_invariant (selfId : Nat) (s : ChatState)
    (ps : List (Nat × String × Nat × RAction))
    (h : ∀ m ∈ s.messages, ReactionInv m.reactions) :
    ∀ m ∈ (applyEvents selfId s
        (ps.map (fun p => Event.reaction p.1 p.2.1 p.2.2.1 p.2.2.2))).messages,
      ReactionInv m.reactions := by
  induction ps generalizing s with
  | nil => exact h
  | cons p t ih =>
    simp only [List.map_cons, applyEvents, List.foldl_cons]
    exact ih _ (applyEvent_reaction_inv selfId s p.1 p.2.1 p.2.2.1 p.2.2.2 h)

/-- Sample message 5 carrying one valid bucket `{a, 1, [9]}`. -/
def c5msg : Message :=
  { c10msg 5 with reactions := [⟨"a", 1, [9]⟩] }

/-- Sample state for the reaction scenario. -/
def c5state : ChatState :=
  { c10state with messages := [c5msg] }

/-- C5 witness: scenario B's event sequence (user 7 adds, user 9 adds —
already present — then user 9 removes) applied to `c5state`. -/
theorem c5_reaction_bucket_invariant_witness :
    (∀ m ∈ c5state.messages, ReactionInv m.reactions) ∧
    (∀ m ∈ (applyEvents 1 c5state
        (([(5, "a", 7, RAction.added), (5, "a", 9, RAction.added),
           (5, "a", 9, RAction.removed)]).map
          (fun p => Event.reaction p.1 p.2.1 p.2.2.1 p.2.2.2))).messages,
      ReactionInv m.reactions) :=
  ⟨by decide,
    c5_reaction_bucket_invariant 1 c5state
      [(5, "a", 7, .added), (5, "a", 9, .added), (5, "a", 9, .removed)] (by decide)⟩

/-!
Claim C7 — unread counter rule.
-/

/-- Reading `unread` below a non-matching head skips it. -/
theorem unreadOf_cons_ne (a : Contact) (l : List Contact) (c : Nat)
    (h : a.id ≠ c) : unreadOf (a :: l) c = unreadOf l c := by
  unfold unreadOf
  rw [List.find?_cons_of_neg _ (by simp [h])]

/-- Filtering out contact `t` does not change the `unread` read for any
other contact. -/
theorem unreadOf_filter_ne (users : List Contact) (t c : Nat) (hne : c ≠ t) :
    unreadOf (users.filter (fun u => u.id ≠ t)) c = unreadOf users c := by
  induction users with
  | nil => rfl
  | cons a l ih =>
    by_cases hat : a.id = t
    · rw [List.filter_cons_of_neg (by simp [hat]), ih,
        unreadOf_cons_ne a l c (by rw [hat]; exact fun hh => hne hh.symm)]
    · rw [List.filter_cons_of_pos (by simp [hat])]
      by_cases hac : a.id = c
      · unfold unreadOf
        rw [List.find?_cons_of_pos _ (by simp [hac]),
          List.find?_cons_of_pos _ (by simp [hac])]
      · rw [unreadOf_cons_ne a _ c hac, unreadOf_cons_ne a l c hac, ih]

/-- The upserted target contact's `unread` after a `sidebar`/`message`
contact update. -/
theorem unreadOf_upsert_target (selfId : Nat) (selId : Option Nat)
    (users : List Contact) (msg : Message) :
    unreadOf (upsertContact selfId selId users msg) (msgTarget selfId msg) =
      if selId = some (msgTarget selfId msg) then 0
      else unreadOf users (msgTarget selfId msg) +
        (if msg.senderId ≠ selfId then 1 else 0) := by
  unfold upsertContact unreadOf
  rw [List.find?_cons_of_pos _ (by simp)]

/-- Contacts other than the target keep their `unread` across the
upsert. -/
theorem unreadOf_upsert_other (selfId : Nat) (selId : Option Nat)
    (users : List Contact) (msg : Message) (c : Nat)
    (hne : c ≠ msgTarget selfId msg) :
    unreadOf (upsertContact selfId selId users msg) c = unreadOf users c := by
  unfold upsertContact
  rw [unreadOf_cons_ne _ _ c (fun hh => hne hh.symm)]
  exact unreadOf_filter_ne users _ c hne

/-- Both the `sidebar` and the `message` branch update the contact list
through the same upsert. -/
theorem users_after_sidebar_or_message (selfId : Nat) (s : ChatState)
    (msg : Message) (e : Event) (he : e = .sidebar msg ∨ e = .message msg) :
    (applyEvent selfId s e).users = upsertContact selfId s.selectedId s.users msg := by
  rcases he with he | he <;> subst he
  · rfl
  · simp only [applyEvent]
    split
    · split <;> rfl
    · rfl

/-- Zeroing the selected contact's `unread` through the snapshot map
really reads back 0. -/
theorem unreadOf_zero_map (users : List Contact) (sel : Nat) :
    unreadOf (users.map (fun u => if u.id = sel then { u with unread := 0 } else u))
      sel = 0 := by
  induction users with
  | nil => rfl
  | cons a l ih =>
    by_cases h : a.id = sel
    · simp only [List.map_cons, if_pos h]
      unfold unreadOf
      rw [List.find?_cons_of_pos _ (by simp [h])]
    · simp only [List.map_cons, if_neg h]
      rw [unreadOf_cons_ne _ _ _ (by simpa using h)]
      exact ih

/-- C7: on every `sidebar` or `message` event, the affected contact's
`unread` grows by exactly 1 iff the contact is not the active selection
and the sender is not the local user; it becomes 0 when the contact is
active and stays unchanged when the sender is the local user; all other
contacts' counts are untouched.  Applying the conversation snapshot
(`fetchConversation`) for the selected contact zeroes its `unread` in
the same state transition that emits the read-receipt frame for the
snapshot's latest message. -/
theorem c7_unread_counter_rule (selfId : Nat) (s : ChatState) (msg : Message)
    (e : Event) (he : e = .sidebar msg ∨ e = .message msg)
    (data : List Message) (sel : Nat) (last : Message)
    (hsel : s.selectedId = some sel) (hlast : data.getLast? = some last) :
    ((s.selectedId ≠ some (msgTarget selfId msg) → msg.senderId ≠ selfId →
        unreadOf (applyEvent selfId s e).users (msgTarget selfId msg) =
          unreadOf s.users (msgTarget selfId msg) + 1) ∧
     (s.selectedId = some (msgTarget selfId msg) →
        unreadOf (applyEvent selfId s e).users (msgTarget selfId msg) = 0) ∧
     (msg.senderId = selfId → s.selectedId ≠ some (msgTarget selfId msg) →
        unreadOf (applyEvent selfId s e).users (msgTarget selfId msg) =
          unreadOf s.users (msgTarget selfId msg)) ∧
     (∀ c, c ≠ msgTarget selfId msg →
        unreadOf (applyEvent selfId s e).users c = unreadOf s.users c)) ∧
    (unreadOf (fetchConversationApply s data).users sel = 0 ∧
     (fetchConversationApply s data).outFrames =
       s.outFrames ++ [.readFrame last.timestamp]) := by
  have husers := users_after_sidebar_or_message selfId s msg e he
  refine ⟨⟨?_, ?_, ?_, ?_⟩, ?_, ?_⟩
  · intro hact hsend
    rw [husers, unreadOf_upsert_target, if_neg hact, if_pos hsend]
  · intro hact
    rw [husers, unreadOf_upsert_target, if_pos hact]
  · intro hsend hact
    rw [husers, unreadOf_upsert_target, if_neg hact, if_neg (by simp [hsend])]
    exact Nat.add_zero _
  · intro c hc
    rw [husers, unreadOf_upsert_other selfId s.selectedId s.users msg c hc]
  · simp only [fetchConversationApply, hsel]
    exact unreadOf_zero_map s.users sel
  · simp only [fetchConversationApply, hsel, hlast]

/-- C7 witness: a `message` event from contact 3 (not selected, not
self) on `c10state`, and the snapshot fetch for the selected contact
2. -/
theorem c7_unread_counter_rule_witness :
    ((Event.message { c10msg 7 with senderId := 3, receiverId := 1 } =
        Event.sidebar { c10msg 7 with senderId := 3, receiverId := 1 } ∨
      Event.message { c10msg 7 with senderId := 3, receiverId := 1 } =
        Event.message { c10msg 7 with senderId := 3, receiverId := 1 }) ∧
     c10state.selectedId = some 2 ∧
     [c10msg 1].getLast? = some (c10msg 1)) ∧
    (((c10state.selectedId ≠
          some (msgTarget 1 { c10msg 7 with senderId := 3, receiverId := 1 }) →
        ({ c10msg 7 with senderId := 3, receiverId := 1 } : Message).senderId ≠ 1 →
        unreadOf (applyEvent 1 c10state
            (.message { c10msg 7 with senderId := 3, receiverId := 1 })).users
          (msgTarget 1 { c10msg 7 with senderId := 3, receiverId := 1 }) =
          unreadOf c10state.users
            (msgTarget 1 { c10msg 7 with senderId := 3, receiverId := 1 }) + 1) ∧
      (c10state.selectedId =
          some (msgTarget 1 { c10msg 7 with senderId := 3, receiverId := 1 }) →
        unreadOf (applyEvent 1 c10state
            (.message { c10msg 7 with senderId := 3, receiverId := 1 })).users
          (msgTarget 1 { c10msg 7 with senderId := 3, receiverId := 1 }) = 0) ∧
      (({ c10msg 7 with senderId := 3, receiverId := 1 } : Message).senderId = 1 →
        c10state.selectedId ≠
          some (msgTarget 1 { c10msg 7 with senderId := 3, receiverId := 1 }) →
        unreadOf (applyEvent 1 c10state
            (.message { c10msg 7 with senderId := 3, receiverId := 1 })).users
          (msgTarget 1 { c10msg 7 with senderId := 3, receiverId := 1 }) =
          unreadOf c10state.users
            (msgTarget 1 { c10msg 7 with senderId := 3, receiverId := 1 })) ∧
      (∀ c, c ≠ msgTarget 1 { c10msg 7 with senderId := 3, receiverId := 1 } →
        unreadOf (applyEvent 1 c10state
            (.message { c10msg 7 with senderId := 3, receiverId := 1 })).users c =
          unreadOf c10state.users c)) ∧
     (unreadOf (fetchConversationApply c10state [c10msg 1]).users 2 = 0 ∧
      (fetchConversationApply c10state [c10msg 1]).outFrames =
        c10state.outFrames ++ [.readFrame (c10msg 1).timestamp])) :=
  ⟨⟨Or.inr rfl, by decide, by decide⟩,
    c7_unread_counter_rule 1 c10state { c10msg 7 with senderId := 3, receiverId := 1 }
      (.message { c10msg 7 with senderId := 3, receiverId := 1 }) (Or.inr rfl)
      [c10msg 1] 2 (c10msg 1) (by decide) (by decide)⟩

/-!
Claim C4 — read/delivered monotonicity.
-/

/-- A message already marked read and delivered. -/
def c4msg : Message :=
  { c10msg 1 with read := true, delivered := true }

/-- A `message_updated` payload for the same id with the flags down, as
a server would send for a message not yet read/delivered on its side. -/
def c4upd : Message :=
  { c4msg with content := "edited", is_edited := true, read := false, delivered := false }

/-- State holding the read and delivered message. -/
def c4state : ChatState :=
  { c10state with messages := [c4msg] }

/-- C4 counterexample: the `message_updated` branch merges the payload
over the stored message (`{ ...m, ...updated }`), so a payload carrying
`read: false` / `delivered: false` reverts both flags; likewise
`fetchConversation` replaces the whole list, so a snapshot copy with the
flags down reverts them.  This refutes the claim that no later event
application resets `read` or `delivered`. -/
theorem c4_monotonicity_counterexample :
    ((applyEvent 1 c4state (.messageUpdated c4upd)).messages.map Message.read =
      [false]) ∧
    ((applyEvent 1 c4state (.messageUpdated c4upd)).messages.map Message.delivered =
      [false]) ∧
    ((fetchConversationApply c4state [c4upd]).messages.map Message.read = [false]) ∧
    (c4state.messages.map Message.read = [true] ∧
     c4state.messages.map Message.delivered = [true]) := by
  decide

/-- One event application other than `message_updated` keeps the flags
of the message at each position monotone. -/
theorem flags_mono_step (selfId : Nat) (s : ChatState) (e : Event)
    (hne : ∀ u, e ≠ .messageUpdated u) (i : Nat) (m : Message)
    (hm : s.messages.get? i = some m) :
    ∃ m', (applyEvent selfId s e).messages.get? i = some m' ∧
      (m.read = true → m'.read = true) ∧
      (m.delivered = true → m'.delivered = true) := by
  have hmap : ∀ (f : Message → Message),
      (∀ x : Message, (x.read = true → (f x).read = true) ∧
        (x.delivered = true → (f x).delivered = true)) →
      (s.messages.map f).get? i = some (f m) ∧
      (m.read = true → (f m).read = true) ∧
      (m.delivered = true → (f m).delivered = true) := by
    intro f hf
    exact ⟨by rw [List.get?_map, hm]; rfl, (hf m).1, (hf m).2⟩
  cases e with
  | presence uid online =>
    refine ⟨m, ?_, fun h => h, fun h => h⟩
    simp only [applyEvent]
    split <;> exact hm
  | presenceSync ids => exact ⟨m, hm, fun h => h, fun h => h⟩
  | typingEvt uid =>
    refine ⟨m, ?_, fun h => h, fun h => h⟩
    simp only [applyEvent]
    split <;> exact hm
  | delivered uid mid =>
    simp only [applyEvent]
    split
    · exact ⟨_, hmap _ (by intro x; constructor <;> intro hx <;> split <;> simp [hx])⟩
    · exact ⟨m, hm, fun h => h, fun h => h⟩
  | readEvt uid lastRead =>
    simp only [applyEvent]
    split
    · exact ⟨_, hmap _ (by intro x; constructor <;> intro hx <;> split <;> simp [hx])⟩
    · exact ⟨m, hm, fun h => h, fun h => h⟩
  | sidebar msg => exact ⟨m, hm, fun h => h, fun h => h⟩
  | message msg =>
    refine ⟨m, ?_, fun h => h, fun h => h⟩
    have hi : i < s.messages.length := (List.get?_eq_some.mp hm).1
    simp only [applyEvent]
    split
    · have happ : (dedupAppend s.messages msg).get? i = some m := by
        unfold dedupAppend
        split
        · exact hm
        · rw [List.get?_append hi]
          exact hm
      split <;> exact happ
    · exact hm
  | messageUpdated upd => exact absurd rfl (hne upd)
  | reaction mid emoji uid act =>
    simp only [applyEvent]
    split
    · exact ⟨_, hmap _ (by
        intro x
        constructor <;> intro hx <;> split <;> simp [applyReaction, hx])⟩
    · exact ⟨m, hm, fun h => h, fun h => h⟩
  | messageDeleted mid =>
    exact ⟨_, hmap _ (by
      intro x
      constructor <;> intro hx <;> split <;> simp [deleteFields, hx])⟩

/-- C4 (amended): `read` and `delivered` are monotone across every
sequence of inbound events except `message_updated` (and except the
snapshot replacement): once true at a list position they stay true.
`message_updated` and the snapshot overwrite the flags with the
payload's values and can revert them (see the counterexample). -/
theorem c4_flags_monotone_amended (selfId : Nat) (s : ChatState) (es : List Event)
    (hne : ∀ e ∈ es, ∀ u, e ≠ .messageUpdated u) (i : Nat) (m : Message)
    (hm : s.messages.get? i = some m) :
    ∃ m', (applyEvents selfId s es).messages.get? i = some m' ∧
      (m.read = true → m'.read = true) ∧
      (m.delivered = true → m'.delivered = true) := by
  induction es generalizing s m with
  | nil => exact ⟨m, hm, fun h => h, fun h => h⟩
  | cons e t ih =>
    obtain ⟨m1, hm1, hr1, hd1⟩ :=
      flags_mono_step selfId s e (hne e (by simp)) i m hm
    obtain ⟨m2, hm2, hr2, hd2⟩ :=
      ih (applyEvent selfId s e) (fun e' he' u => hne e' (List.mem_cons_of_mem e he') u)
        m1 hm1
    exact ⟨m2, hm2, fun h => hr2 (hr1 h), fun h => hd2 (hd1 h)⟩

/-- C4 witness: the amended monotonicity across a `delivered`, a `read`,
a `reaction` and a `message_deleted` event on the read message. -/
theorem c4_flags_monotone_witness :
    (∀ e ∈ [Event.delivered 2 1, Event.readEvt 2 5, Event.reaction 1 "a" 2 .added,
        Event.messageDeleted 1], ∀ u, e ≠ .messageUpdated u) ∧
    c4state.messages.get? 0 = some c4msg ∧
    (∃ m', (applyEvents 1 c4state [Event.delivered 2 1, Event.readEvt 2 5,
        Event.reaction 1 "a" 2 .added, Event.messageDeleted 1]).messages.get? 0 =
          some m' ∧
      (c4msg.read = true → m'.read = true) ∧
      (c4msg.delivered = true → m'.delivered = true)) :=
  ⟨by intro e he u; fin_cases he <;> simp, by decide,
    c4_flags_monotone_amended 1 c4state
      [Event.delivered 2 1, Event.readEvt 2 5, Event.reaction 1 "a" 2 .added,
        Event.messageDeleted 1]
      (by intro e he u; fin_cases he <;> simp) 0 c4msg (by decide)⟩

/-!
Claim C2 — snapshot/event race.
-/

/-- Snapshot message id 1 from contact 2. -/
def c2msg1 : Message := c10msg 1

/-- Event message id 2 from contact 2, arriving before the snapshot
response resolves. -/
def c2msg2 : Message := c10msg 2

/-- Initial state: contact 2 selected, empty message list. -/
def c2s0 : ChatState :=
  { users := [⟨2, true, 0, none⟩], selectedId := some 2, messages := []
    typing := false, deliveredAcks := [], outFrames := [] }

/-- C2 counterexample (scenario A's race, losing interleaving): the
`message` event for id 2 is applied first, then the snapshot `[id 1]`
resolves; `fetchConversation` replaces the whole message list
(`setMessages(data)`), so the final list is exactly `[id 1]` and the
event-appended id 2 is lost — the claim's required final state
containing both ids does not hold. -/
theorem c2_snapshot_race_counterexample :
    (applyEvent 1 c2s0 (.message c2msg2)).messages.map Message.id = [2] ∧
    (fetchConversationApply (applyEvent 1 c2s0 (.message c2msg2)) [c2msg1]).messages =
      [c2msg1] ∧
    2 ∉ (fetchConversationApply (applyEvent 1 c2s0 (.message c2msg2))
      [c2msg1]).messages.map Message.id := by
  decide

/-- C2 (amended): the event-appended id survives only in interleavings
where the snapshot response is applied before the `message` event: then
the final list is the snapshot history plus the appended event message
(both id sets present).  When the event is applied first, the snapshot
replacement clobbers it (see the counterexample). -/
theorem c2_snapshot_race_amended (selfId : Nat) (s : ChatState)
    (data : List Message) (msg : Message)
    (hactive : inActiveConv selfId s.selectedId msg)
    (hfresh : ∀ p ∈ data, p.id ≠ msg.id) :
    (applyEvent selfId (fetchConversationApply s data) (.message msg)).messages =
      data ++ [msg] := by
  cases hsel : s.selectedId with
  | none => rw [hsel] at hactive; exact absurd hactive (by simp [inActiveConv])
  | some sel =>
    have hmid : (fetchConversationApply s data).messages = data := by
      simp [fetchConversationApply, hsel]
    have hsel2 : (fetchConversationApply s data).selectedId = s.selectedId := by
      simp [fetchConversationApply, hsel]
    have hdedup : dedupAppend data msg = data ++ [msg] := by
      unfold dedupAppend
      rw [if_neg]
      simp only [List.any_eq_true, decide_eq_true_eq, not_exists, not_and]
      exact hfresh
    simp only [applyEvent, hsel2, hmid]
    rw [if_pos hactive]
    split <;> simpa using hdedup

/-- C2 witness: snapshot `[id 1]` applied first, then the event for id
2: both ids are retained. -/
theorem c2_snapshot_race_witness :
    inActiveConv 1 c2s0.selectedId c2msg2 ∧
    (∀ p ∈ [c2msg1], p.id ≠ c2msg2.id) ∧
    (applyEvent 1 (fetchConversationApply c2s0 [c2msg1]) (.message c2msg2)).messages =
      [c2msg1] ++ [c2msg2] :=
  ⟨by decide, by decide, c2_snapshot_race_amended 1 c2s0 [c2msg1] c2msg2
    (by decide) (by decide)⟩

/-!
Claim C1 — single-flight credential refresh.
-/

/-- Transport invariant: the `isRefreshing` flag is up exactly while one
refresh HTTP call is in flight, and there is never more than one. -/
def TInv (s : TransportState) : Prop :=
  (s.isRefreshing = false ∧ s.pendingRefresh = []) ∨
  (s.isRefreshing = true ∧ ∃ r, s.pendingRefresh = [r])

/-- A step that moves neither the flag nor the pending refresh list
keeps the invariant. -/
theorem TInv_same {s t : TransportState} (hi : t.isRefreshing = s.isRefreshing)
    (hp : t.pendingRefresh = s.pendingRefresh) (hs : TInv s) : TInv t := by
  unfold TInv at *
  rw [hi, hp]
  exact hs

/-- Every interceptor step preserves the invariant. -/
theorem tStep_inv {s : TransportState} (e : TEvent) (hs : TInv s) :
    TInv (tStep s e) := by
  cases e with
  | resp401 rid hasRetryFlag isRefreshUrl =>
    simp only [tStep]
    split
    · exact TInv_same rfl rfl hs
    · split
      · exact TInv_same rfl rfl hs
      · split
        · exact TInv_same rfl rfl hs
        · split
          · exact TInv_same rfl rfl hs
          · rename_i hflag
            right
            refine ⟨rfl, rid, ?_⟩
            have hempty : s.pendingRefresh = [] := by
              rcases hs with ⟨_, hp⟩ | ⟨hi, _⟩
              · exact hp
              · exact absurd hi hflag
            simp [hempty]
  | refreshOk tok =>
    simp only [tStep]
    split
    · exact hs
    · exact Or.inl ⟨rfl, rfl⟩
  | refreshErr =>
    simp only [tStep]
    split
    · exact hs
    · exact Or.inl ⟨rfl, rfl⟩

/-- The invariant holds in every state reachable from module load. -/
theorem tRun_inv (a rt : Option Nat) (es : List TEvent) :
    TInv (tRun (tInit a rt) es) := by
  suffices hgen : ∀ s, TInv s → TInv (tRun s es) from hgen _ (Or.inl ⟨rfl, rfl⟩)
  induction es with
  | nil => exact fun s hs => hs
  | cons e t ih => exact fun s hs => ih _ (tStep_inv e hs)

/-- While a refresh is in flight, further fresh 401s only append to the
waiter queue. -/
theorem fire401s_queued (rids : List Nat) (s : TransportState) (rt : Nat)
    (hrt : s.refreshTok = some rt) (hflag : s.isRefreshing = true) :
    fire401s s rids = { s with refreshQueue := s.refreshQueue ++ rids } := by
  induction rids generalizing s with
  | nil => simp [fire401s]
  | cons r t ih =>
    have hstep : tStep s (.resp401 r false false) =
        { s with refreshQueue := s.refreshQueue ++ [r] } := by
      simp [tStep, hrt, hflag]
    simp only [fire401s, List.foldl_cons] at *
    rw [hstep, ih { s with refreshQueue := s.refreshQueue ++ [r] } hrt hflag]
    simp

/-- From an idle transport with a stored refresh token, the first 401
raises the flag and issues the one refresh call. -/
theorem tStep_first401 (s : TransportState) (rt r : Nat)
    (hrt : s.refreshTok = some rt) (hflag : s.isRefreshing = false) :
    tStep s (.resp401 r false false) =
      { s with
        isRefreshing := true
        pendingRefresh := s.pendingRefresh ++ [r]
        refreshStarts := s.refreshStarts + 1 } := by
  simp [tStep, hrt, hflag]

/-- N simultaneous 401s from module-load state: the first becomes the
refresher, the rest queue. -/
theorem fire401s_scenario (a : Option Nat) (rt r : Nat) (rest : List Nat) :
    fire401s (tInit a (some rt)) (r :: rest) =
      { access := a, refreshTok := some rt, isRefreshing := true
        refreshQueue := rest, pendingRefresh := [r], replays := []
        rejected := [], refreshStarts := 1 } := by
  simp only [fire401s, List.foldl_cons]
  rw [tStep_first401 (tInit a (some rt)) rt r rfl rfl]
  have hq := fire401s_queued rest
    { tInit a (some rt) with
      isRefreshing := true
      pendingRefresh := (tInit a (some rt)).pendingRefresh ++ [r]
      refreshStarts := (tInit a (some rt)).refreshStarts + 1 } rt rfl rfl
  simp only [fire401s] at hq
  rw [hq]
  simp [tInit]

/-- C1 (amended): N in-flight requests receiving 401 with a stored
refresh credential trigger exactly one refresh call, all others queueing
on it (and at most one refresh is in flight in any reachable state); on
success all N are replayed with the new credential; on failure all N are
rejected and both stored credentials are cleared; a 401 on the refresh
call itself only clears the credentials and rejects (it never re-enters
the path); and the request that performed the refresh is retried at most
once — its replay carries the `_retry` flag and a 401 bearing that flag
is rejected outright.  (Requests replayed from the waiter queue do not
carry the flag and may re-enter the path; see the counterexample.) -/
theorem c1_single_flight_amended (a : Option Nat) (rt r tok : Nat) (rest : List Nat)
    (s' : TransportState) (rid rt' : Nat) (b : Bool)
    (hguard : s'.refreshTok = some rt') :
    (∀ es : List TEvent, (tRun (tInit a (some rt)) es).pendingRefresh.length ≤ 1) ∧
    (fire401s (tInit a (some rt)) (r :: rest)).refreshStarts = 1 ∧
    (fire401s (tInit a (some rt)) (r :: rest)).pendingRefresh = [r] ∧
    (fire401s (tInit a (some rt)) (r :: rest)).refreshQueue = rest ∧
    (tStep (fire401s (tInit a (some rt)) (r :: rest)) (.refreshOk tok)).access =
      some tok ∧
    (tStep (fire401s (tInit a (some rt)) (r :: rest)) (.refreshOk tok)).replays =
      rest.map (fun q => (q, false, some tok)) ++ [(r, true, some tok)] ∧
    (∀ q ∈ r :: rest, ∃ fl, (q, fl, some tok) ∈
      (tStep (fire401s (tInit a (some rt)) (r :: rest)) (.refreshOk tok)).replays) ∧
    (tStep (fire401s (tInit a (some rt)) (r :: rest)) .refreshErr).rejected =
      rest ++ [r] ∧
    ((tStep (fire401s (tInit a (some rt)) (r :: rest)) .refreshErr).access = none ∧
     (tStep (fire401s (tInit a (some rt)) (r :: rest)) .refreshErr).refreshTok =
       none) ∧
    (tStep s' (.resp401 rid false true) =
      { s' with access := none, refreshTok := none
                rejected := s'.rejected ++ [rid] }) ∧
    (tStep s' (.resp401 rid true b) = { s' with rejected := s'.rejected ++ [rid] }) := by
  have hscen := fire401s_scenario a rt r rest
  refine ⟨?_, ?_, ?_, ?_, ?_, ?_, ?_, ?_, ⟨?_, ?_⟩, ?_, ?_⟩
  · intro es
    rcases tRun_inv a (some rt) es with ⟨_, hp⟩ | ⟨_, r0, hp⟩ <;> simp [hp]
  · rw [hscen]
  · rw [hscen]
  · rw [hscen]
  · rw [hscen]
    simp [tStep]
  · rw [hscen]
    simp [tStep]
  · intro q hq
    rw [hscen]
    rcases List.mem_cons.mp hq with rfl | hq2
    · refine ⟨true, ?_⟩
      simp [tStep]
    · refine ⟨false, ?_⟩
      simp only [tStep, List.mem_append]
      exact Or.inl (by simpa using List.mem_map_of_mem (fun q => (q, false, some tok)) hq2)
  · rw [hscen]
    simp [tStep]
  · rw [hscen]
    simp [tStep]
  · rw [hscen]
    simp [tStep]
  · simp [tStep, hguard]
  · simp [tStep]

/-- The environment trace refuting per-request single-retry: requests 1
and 2 both 401 (request 1 refreshes, request 2 queues); the refresh
succeeds and both replay — request 2's replay without the `_retry` flag;
request 2's replay receives another 401, re-enters the path, refreshes
again and is replayed a second time. -/
def c1trace : List TEvent :=
  [.resp401 1 false false, .resp401 2 false false, .refreshOk 20,
   .resp401 2 false false, .refreshOk 30]

/-- C1 counterexample: the claim's "each request is retried at most
once" fails — only the refresher's config gets `_retry = true`; a
request resolved from the waiter queue is replayed with no retry flag,
so a second 401 on its replay makes the interceptor refresh and replay
it again: request 2 is replayed twice. -/
theorem c1_retry_twice_counterexample :
    ((tRun (tInit (some 1) (some 10)) c1trace).replays.map Prod.fst).count 2 = 2 ∧
    (tRun (tInit (some 1) (some 10)) c1trace).replays =
      [(2, false, some 20), (1, true, some 20), (2, true, some 30)] := by
  decide

/-- C1 witness: the amended theorem at three concurrent requests 1, 2, 3
with stored refresh token 10; exactly one refresh call is issued and
requests 2 and 3 are queued. -/
theorem c1_single_flight_witness :
    (tInit (some 1) (some 10)).refreshTok = some 10 ∧
    (fire401s (tInit (some 1) (some 10)) (1 :: [2, 3])).refreshStarts = 1 ∧
    (fire401s (tInit (some 1) (some 10)) (1 :: [2, 3])).refreshQueue = [2, 3] ∧
    (tStep (fire401s (tInit (some 1) (some 10)) (1 :: [2, 3])) (.refreshOk 20)).replays =
      [2, 3].map (fun q => (q, false, some 20)) ++ [(1, true, some 20)] := by
  have h := c1_single_flight_amended (some 1) 10 1 20 [2, 3]
    (tInit (some 1) (some 10)) 4 10 true rfl
  exact ⟨rfl, h.2.1, h.2.2.2.1, h.2.2.2.2.2.1⟩
